import Mathlib

/-!
A shallow embedding of `client.go` and `main.go` of aci-rep-monitor.

The development models the rogue-endpoint monitor:

* Go strings are Lean `String`s, `strings.Split`, `strings.Join` and
  `strings.HasPrefix` are structural functions on their characters;
* `time.Time` is an integer count of nanoseconds, `time.Duration` a signed
  64-bit count of nanoseconds (`wrap64` is the wrap-around of Go integer
  arithmetic, `Since` the saturating `time.Since`);
* the map `c.faults` is an association list whose order is the order in which
  `range` visits the entries;
* a Go function returning `error` returns an `Outcome`, whose third
  constructor is a run-time panic;
* the HTTP transport and `time.Parse` are parameters of the functions that
  use them.
-/

set_option autoImplicit false

namespace RepMonitor

/-! ## Results of Go calls -/

/-- Result of a Go call: a value, a returned `error`, or a panic that unwinds
the goroutine (and with it the process). -/
inductive Outcome (α : Type) where
  | ok (value : α)
  | error (msg : String)
  | panicked (msg : String)
  deriving DecidableEq, Repr

/-- True when the call unwound with a panic. -/
def Outcome.isPanic {α : Type} : Outcome α → Bool
  | .panicked _ => true
  | _ => false

/-- True when the call returned a non-nil `error`. -/
def Outcome.isError {α : Type} : Outcome α → Bool
  | .error _ => true
  | _ => false

/-! ## Integers, durations and the clock -/

/-- Two's complement wrap-around of a 64-bit signed integer operation. -/
def wrap64 (x : Int) : Int := (x + 9223372036854775808) % 18446744073709551616 - 9223372036854775808

/-- Largest `time.Duration`. -/
def maxDuration : Int := 9223372036854775807

/-- Smallest `time.Duration`. -/
def minDuration : Int := -9223372036854775808

/-- The constant `time.Second`, in nanoseconds. -/
def Second : Int := 1000000000

/-- The expression `time.Duration(n) * time.Second` for a Go `int` n. -/
def seconds (n : Int) : Int := wrap64 (wrap64 n * Second)

/-- The call `time.Since(t)` at clock reading `now`: the difference of the two
instants, saturated to the range of `time.Duration`. -/
def Since (now t : Int) : Int :=
  if now - t > maxDuration then maxDuration
  else if now - t < minDuration then minDuration
  else now - t

/-! ## Strings -/

/-- Pieces of a character sequence between occurrences of `sep`; an empty
sequence has the single piece `[]`. -/
def splitChars (sep : Char) : List Char → List (List Char)
  | [] => [[]]
  | c :: cs =>
    if c = sep then [] :: splitChars sep cs
    else
      match splitChars sep cs with
      | [] => [[c]]
      | piece :: pieces => (c :: piece) :: pieces

/-- The call `strings.Split(s, "/")`. -/
def Split (s : String) : List String := (splitChars '/' s.data).map String.mk

/-- Concatenation of character sequences with `sep` between neighbours. -/
def joinChars (sep : List Char) : List (List Char) → List Char
  | [] => []
  | [p] => p
  | p :: q :: ps => p ++ sep ++ joinChars sep (q :: ps)

/-- The call `strings.Join(parts, sep)`. -/
def Join (parts : List String) (sep : String) : String :=
  String.mk (joinChars sep.data (parts.map String.data))

/-- The call `strings.HasPrefix(s, pre)`. -/
def HasPrefix (s pre : String) : Bool := pre.data.isPrefixOf s.data

/-! ## Data model -/

/-- The struct `fault` of `client.go`. -/
structure fault where
  descr : String
  dn : String
  lastTransition : Int
  lc : String
  deriving DecidableEq, Repr

/-- The map `c.faults`, entries in the order `range` visits them. -/
abbrev FaultMap := List (String × fault)

/-- The read `m[k]`. -/
def FaultMap.get (m : FaultMap) (k : String) : Option fault :=
  match m with
  | [] => none
  | (k', v) :: rest => if k' = k then some v else FaultMap.get rest k

/-- The assignment `m[k] = v`: overwrites the entry of `k`, or adds one. -/
def FaultMap.set (m : FaultMap) (k : String) (v : fault) : FaultMap :=
  match m with
  | [] => [(k, v)]
  | (k', v') :: rest =>
    if k' = k then (k, v) :: rest else (k', v') :: FaultMap.set rest k v

/-- The statement `delete(m, k)`. -/
def FaultMap.delete (m : FaultMap) (k : String) : FaultMap :=
  m.filter (fun e => decide (e.1 ≠ k))

/-- The keys of the map. -/
def FaultMap.keys (m : FaultMap) : List String := m.map Prod.fst

/-- The string-valued members of a JSON object, as `gjson.Result` shows them. -/
abbrev Record := List (String × String)

/-- The expression `record.Get(key).Str`: the empty string when there is no
such member. -/
def Record.Str (record : Record) (key : String) : String :=
  match record with
  | [] => ""
  | (k, v) :: rest => if k = key then v else Record.Str rest key

/-- The mutable fields of the struct `client`, with the host and credentials. -/
structure client where
  host : String
  usr : String
  pwd : String
  lastRefresh : Int
  lastSubscriptionRefresh : Int
  clearDelay : Int
  refreshTimeout : Int
  subscriptionID : String
  faults : FaultMap
  deriving DecidableEq, Repr

/-- An HTTP request made through `c.httpClient`. -/
structure Request where
  method : String
  path : String
  data : List (String × String)
  deriving DecidableEq, Repr

/-- What the code reads from an HTTP response: the status, the outcome of
`ioutil.ReadAll(res.Body)` and the `gjson` paths of the body it queries. -/
structure Response where
  StatusCode : Nat
  readError : Option String
  errorText : String
  refreshTimeoutSeconds : String
  subscriptionId : String
  faultAttributes : List Record
  deriving DecidableEq, Repr

/-- The HTTP client: a transport error or a response for each request. -/
abbrev Transport := Request → Except String Response

/-! ## Fault registry -/

/-- Method `newFault` of `client.go`; `parse` is `time.Parse(time.RFC3339, ·)`.
Returns the `error` (if any) and the client afterwards. -/
def newFault (parse : String → Except String Int) (c : client) (record : Record) :
    Option String × client :=
  let ageStr := record.Str "lastTransition"
  match parse ageStr with
  | .error err => (some err, c)
  | .ok age =>
    let f : fault :=
      { dn := record.Str "dn"
        descr := record.Str "descr"
        lc := record.Str "lc"
        lastTransition := age }
    (none, { c with faults := c.faults.set f.dn f })

/-- Function `getNodeDn` of `client.go`. The slice expression `[:3]` panics
when `strings.Split` returned fewer than three pieces (its result has no spare
capacity). -/
def getNodeDn (dn : String) : Outcome String :=
  let parts := Split dn
  if parts.length < 3 then
    .panicked ("runtime error: slice bounds out of range [:3] with capacity "
      ++ toString parts.length)
  else
    .ok (Join (parts.take 3) "/")

/-- The request `clearNode` posts for the node `nodeDn`. -/
def clearRequest (nodeDn : String) : Request :=
  let lsubj := nodeDn ++ "/sys/action/lsubj-[" ++ nodeDn ++ "]"
  { method := "POST"
    path := "/api/node/mo/" ++ nodeDn ++ "/sys/action.json"
    data :=
      [ ("actionLSubj.attributes.dn", lsubj),
        ("actionLSubj.attributes.oDn", nodeDn),
        ("actionLSubj.children.0.topSystemClearEpLTask.attributes.dn",
          lsubj ++ "/topSystemClearEpLTask"),
        ("actionLSubj.children.0.topSystemClearEpLTask.attributes.adminSt", "start") ] }

/-- Method `clearNode` of `client.go`: its result and the requests it
submitted. -/
def clearNode (http : Transport) (dn : String) : Outcome Unit × List Request :=
  if dn = "" then
    (.error "Empty DN", [])
  else if !HasPrefix dn "topology/pod-" then
    (.error ("Unexpected DN format: " ++ dn), [])
  else
    match getNodeDn dn with
    | .panicked msg => (.panicked msg, [])
    | .error msg => (.error msg, [])
    | .ok nodeDn =>
      let req := clearRequest nodeDn
      match http req with
      | .error err => (.error err, [req])
      | .ok res =>
        match res.readError with
        | some err => (.error err, [req])
        | none =>
          if res.errorText ≠ "" then (.error res.errorText, [req])
          else (.ok (), [req])

/-- What one pass of the inner loop of `clearNodeLoop` did. -/
structure PassResult where
  faults : FaultMap
  calls : List String
  logged : List String
  aborted : Option String
  deriving DecidableEq, Repr

/-- The loop `for dn, fault := range c.faults` of `clearNodeLoop` over the
entries still to visit; `clearNode` gives the result of `c.clearNode(dn)`. The
one deletion is of the entry being visited, and the keys of a map are distinct,
so the entries still to visit stay as they are. A panic of `clearNode` ends the
pass. -/
def clearNodeLoopGo (clearNode : String → Outcome Unit) (now delay : Int) :
    List (String × fault) → PassResult → PassResult
  | [], st => st
  | (dn, f) :: rest, st =>
    let elapsed := Since now f.lastTransition
    if elapsed > delay ∧ f.lc = "raised" then
      match clearNode dn with
      | .panicked msg => { st with calls := st.calls ++ [dn], aborted := some msg }
      | .error err =>
        clearNodeLoopGo clearNode now delay rest
          { st with
            calls := st.calls ++ [dn]
            logged := st.logged ++ [err]
            faults := st.faults.delete dn }
      | .ok _ =>
        clearNodeLoopGo clearNode now delay rest
          { st with calls := st.calls ++ [dn], faults := st.faults.delete dn }
    else
      clearNodeLoopGo clearNode now delay rest st

/-- One iteration of the outer loop of `clearNodeLoop`, at clock reading `now`,
for a registry `faults` and the configured `clearDelay`. -/
def clearNodeLoopPass (clearNode : String → Outcome Unit) (now clearDelay : Int)
    (faults : FaultMap) : PassResult :=
  clearNodeLoopGo clearNode now (seconds clearDelay) faults
    { faults := faults, calls := [], logged := [], aborted := none }

/-- The faults the scan is specified to select: those with `lc` equal to
"raised" whose age `now - lastTransition`, as an integer, exceeds `delay`. -/
def due (now delay : Int) (faults : FaultMap) : FaultMap :=
  faults.filter (fun e => decide (now - e.2.lastTransition > delay) && decide (e.2.lc = "raised"))

/-- The test of the inner loop of `clearNodeLoop`, as a Boolean. -/
def selected (now delay : Int) (e : String × fault) : Bool :=
  decide (Since now e.2.lastTransition > delay ∧ e.2.lc = "raised")

/-- The function `c.clearNode` as the scan sees it: only its result. -/
def clearNodeVia (http : Transport) (dn : String) : Outcome Unit := (clearNode http dn).1

/-! ## Sample data -/

/-- A controller that accepts every request and reports no error. -/
def okTransport : Transport := fun _ =>
  .ok { StatusCode := 200, readError := none, errorText := "", refreshTimeoutSeconds := "600",
        subscriptionId := "72057611234574337", faultAttributes := [] }

/-- A controller that answers every request with an error payload. -/
def errTransport : Transport := fun _ =>
  .ok { StatusCode := 400, readError := none, errorText := "configured object not found",
        refreshTimeoutSeconds := "", subscriptionId := "", faultAttributes := [] }

/-- A registry of three faults: one raised long ago, one cleared, one raised a
second ago (clock reading `100 * Second`). -/
def sampleFaults : FaultMap :=
  [ ("topology/pod-1/node-101/sys/ctx-[vxlan-1]/bd-[vxlan-2]/rogue",
      { descr := "rogue endpoint", dn := "topology/pod-1/node-101/sys/ctx-[vxlan-1]/bd-[vxlan-2]/rogue",
        lastTransition := 10 * Second, lc := "raised" }),
    ("topology/pod-1/node-102/sys/rogue",
      { descr := "rogue endpoint", dn := "topology/pod-1/node-102/sys/rogue",
        lastTransition := 10 * Second, lc := "cleared" }),
    ("topology/pod-2/node-201/sys/rogue",
      { descr := "rogue endpoint", dn := "topology/pod-2/node-201/sys/rogue",
        lastTransition := 99 * Second, lc := "raised" }) ]

/-- A registry of two faults raised 90 s before the clock reading
`100 * Second`; the object id of the first has two segments. -/
def shortDnFaults : FaultMap :=
  [ ("topology/pod-1",
      { descr := "rogue endpoint", dn := "topology/pod-1", lastTransition := 10 * Second,
        lc := "raised" }),
    ("topology/pod-1/node-101/sys",
      { descr := "rogue endpoint", dn := "topology/pod-1/node-101/sys",
        lastTransition := 10 * Second, lc := "raised" }) ]

/-! ## Ingestion -/

/-- A run of `newFault` calls, one per record in order of arrival (from the
subscription snapshot or from the socket); the error of a call, if any, is
dropped as in `listenSocket`. -/
def ingest (parse : String → Except String Int) (c : client) (records : List Record) : client :=
  records.foldl (fun c r => (newFault parse c r).2) c

/-- The last record of the list whose `dn` is the given one. -/
def lastRecord (dn : String) : List Record → Option Record
  | [] => none
  | r :: rest =>
    match lastRecord dn rest with
    | some r' => some r'
    | none => if r.Str "dn" = dn then some r else none

/-! ## The call `time.Parse(time.RFC3339, ·)`

The functions that parse take the parser as a parameter; `parseRFC3339` below
follows `time.Parse` of the Go library for the layout `time.RFC3339`, chunk
by chunk: four-digit year, `-`, two-digit month, `-`, two-digit day, `T`, one-
or two-digit hour, `:`, two-digit minute, `:`, two-digit second, an optional
fraction after `.` or `,`, and `Z` or a zone offset `±hh:mm`. -/

/-- Value of a decimal digit. -/
def digitVal (c : Char) : Option Nat :=
  if c.isDigit then some (c.toNat - 48) else none

/-- Value of a non-empty run of decimal digits. -/
def readDigits (cs : List Char) : Option Nat :=
  if cs = [] then none
  else cs.foldl (fun acc c => acc.bind (fun n => (digitVal c).map (fun d => 10 * n + d))) (some 0)

/-- Whether the year is a leap year. -/
def isLeap (y : Nat) : Bool := y % 4 == 0 && (y % 100 != 0 || y % 400 == 0)

/-- Number of days of a month. -/
def daysIn (y m : Nat) : Nat :=
  if m = 2 then (if isLeap y then 29 else 28)
  else if m = 4 ∨ m = 6 ∨ m = 9 ∨ m = 11 then 30
  else 31

/-- Days from 1970-01-01 to the given civil date. -/
def daysFromCivil (y m d : Int) : Int :=
  let y' := if m ≤ 2 then y - 1 else y
  let era := y' / 400
  let yoe := y' - era * 400
  let mp := if m > 2 then m - 3 else m + 9
  let doy := (153 * mp + 2) / 5 + d - 1
  let doe := yoe * 365 + yoe / 4 - yoe / 100 + doy
  era * 146097 + doe - 719468

/-- The layout `time.RFC3339`. -/
def RFC3339 : String := "2006-01-02T15:04:05Z07:00"

/-- The bytes of a character in UTF-8. -/
def utf8Bytes (c : Char) : List Nat :=
  if c.toNat < 128 then [c.toNat]
  else if c.toNat < 2048 then [192 + c.toNat / 64, 128 + c.toNat % 64]
  else if c.toNat < 65536 then
    [224 + c.toNat / 4096, 128 + c.toNat / 64 % 64, 128 + c.toNat % 64]
  else
    [240 + c.toNat / 262144, 128 + c.toNat / 4096 % 64, 128 + c.toNat / 64 % 64,
      128 + c.toNat % 64]

/-- The bytes of a text in UTF-8: Go indexes a string by bytes. -/
def utf8 : List Char → List Nat
  | [] => []
  | c :: cs => utf8Bytes c ++ utf8 cs

/-- A hexadecimal digit, lower case. -/
def lowerhex (n : Nat) : Char := if n < 10 then Char.ofNat (48 + n) else Char.ofNat (87 + n)

/-- The escape `\xhh` of each byte. -/
def hexEscapes : List Nat → List Char
  | [] => []
  | b :: bs => Char.ofNat 92 :: 'x' :: lowerhex (b / 16) :: lowerhex (b % 16) :: hexEscapes bs

/-- The body of `quote` of `time/format.go`: a double quote and a backslash get
a backslash, a control or non-ASCII character is written byte by byte. -/
def quoteChars : List Char → List Char
  | [] => []
  | c :: cs =>
    (if 128 ≤ c.toNat ∨ c.toNat < 32 then hexEscapes (utf8Bytes c)
      else if c = Char.ofNat 34 ∨ c = Char.ofNat 92 then [Char.ofNat 92, c]
      else [c]) ++ quoteChars cs

/-- Function `quote` of `time/format.go`. -/
def quote (s : List Char) : String :=
  String.mk (Char.ofNat 34 :: (quoteChars s ++ [Char.ofNat 34]))

/-- Text of a `time.ParseError` without a message: the element `valueElem` of
`value` does not read as the element `layoutElem` of the layout. -/
def cannotParse (value : String) (valueElem : List Char) (layoutElem : String) : String :=
  "parsing time " ++ quote value.data ++ " as " ++ quote RFC3339.data ++ ": cannot parse "
    ++ quote valueElem ++ " as " ++ quote layoutElem.data

/-- Text of a `time.ParseError` with a message. -/
def parseMessage (value : String) (message : String) : String :=
  "parsing time " ++ quote value.data ++ message

/-- The chunk `2006`: four bytes that are decimal digits. -/
def getYear (s : List Char) : Option (Nat × List Char) :=
  match s with
  | a :: b :: c :: d :: rest =>
    match readDigits [a, b, c, d] with
    | some y => some (y, rest)
    | none => none
  | _ => none

/-- Function `skip` of `time/format.go` for a one-character prefix. -/
def skip (value : List Char) (c : Char) : Option (List Char) :=
  match value with
  | v :: rest => if v = c then some rest else none
  | [] => none

/-- Function `getnum` of `time/format.go`: one or two digits, two when `fixed`. -/
def getnum (s : List Char) (fixed : Bool) : Option (Nat × List Char) :=
  match s with
  | [] => none
  | a :: rest =>
    match digitVal a with
    | none => none
    | some x =>
      match rest with
      | [] => if fixed then none else some (x, [])
      | b :: rest' =>
        match digitVal b with
        | some y => some (x * 10 + y, rest')
        | none => if fixed then none else some (x, rest)

/-- Function `parseNanoseconds` on the digits after the separator: at most
nine digits count. -/
def nanoseconds (digits : List Char) : Nat :=
  match readDigits (digits.take 9) with
  | some n => n * 10 ^ (9 - (digits.take 9).length)
  | none => 0

/-- The special case of the chunk `05`: a fraction in the value although the
layout has none. Returns the nanoseconds and the rest of the value. -/
def getFraction (s : List Char) : Nat × List Char :=
  match s with
  | sep :: d :: rest =>
    if (sep = '.' ∨ sep = ',') ∧ d.isDigit then
      (nanoseconds ((d :: rest).takeWhile Char.isDigit), (d :: rest).dropWhile Char.isDigit)
    else (0, s)
  | _ => (0, s)

/-- A byte that is a decimal digit. -/
def byteDigit (b : Nat) : Option Nat := if 48 ≤ b ∧ b ≤ 57 then some (b - 48) else none

/-- The call `getnum(s, true)` on a string of the two bytes `a`, `b`. -/
def getnum2 (a b : Nat) : Option Nat :=
  match byteDigit a, byteDigit b with
  | some x, some y => some (x * 10 + y)
  | _, _ => none

/-- The chunk `Z07:00`: `Z`, or six bytes `±hh:mm`. The range test comes before
the test for a malformed number or sign, and hours up to 24 and minutes up to 60
pass it. Returns the offset in seconds and the rest of the value. -/
def getZone (value : String) (s : List Char) : Except String (Int × List Char) :=
  match s with
  | 'Z' :: rest => .ok (0, rest)
  | _ =>
    match utf8 s with
    | sign :: h1 :: h2 :: colon :: m1 :: m2 :: _ =>
      if colon ≠ 58 then .error (cannotParse value s "Z07:00")
      else
        let hr := getnum2 h1 h2
        let mm := if hr.isSome then getnum2 m1 m2 else some 0
        if mm.getD 0 > 60 then .error (parseMessage value ": time zone offset minute out of range")
        else if hr.getD 0 > 24 then
          .error (parseMessage value ": time zone offset hour out of range")
        else
          match hr, mm with
          | some h, some m =>
            if sign = 43 then .ok ((((h * 60 + m) * 60 : Nat) : Int), s.drop 6)
            else if sign = 45 then .ok (-(((h * 60 + m) * 60 : Nat) : Int), s.drop 6)
            else .error (cannotParse value s "Z07:00")
          | _, _ => .error (cannotParse value s "Z07:00")
    | _ => .error (cannotParse value s "Z07:00")

/-- The result of an optional step, or the parse error. -/
def orError {α : Type} (o : Option α) (err : String) : Except String α :=
  match o with
  | some a => .ok a
  | none => .error err

/-- The call `time.Parse(time.RFC3339, s)`: the instant in nanoseconds since
1970-01-01T00:00:00Z, or the text of the `time.ParseError`. -/
def parseRFC3339 (s : String) : Except String Int := do
  let (year, v) ← orError (getYear s.data) (cannotParse s s.data "2006")
  let v1 ← orError (skip v '-') (cannotParse s v "-")
  let (month, v2) ← orError (getnum v1 true) (cannotParse s v1 "01")
  if month = 0 ∨ 12 < month then throw (parseMessage s ": month out of range")
  let v3 ← orError (skip v2 '-') (cannotParse s v2 "-")
  let (day, v4) ← orError (getnum v3 true) (cannotParse s v3 "02")
  let v5 ← orError (skip v4 'T') (cannotParse s v4 "T")
  let (hour, v6) ← orError (getnum v5 false) (cannotParse s v5 "15")
  if 24 ≤ hour then throw (parseMessage s ": hour out of range")
  let v7 ← orError (skip v6 ':') (cannotParse s v6 ":")
  let (min, v8) ← orError (getnum v7 true) (cannotParse s v7 "04")
  if 60 ≤ min then throw (parseMessage s ": minute out of range")
  let v9 ← orError (skip v8 ':') (cannotParse s v8 ":")
  let (sec, v10) ← orError (getnum v9 true) (cannotParse s v9 "05")
  if 60 ≤ sec then throw (parseMessage s ": second out of range")
  let (nsec, v11) := getFraction v10
  let (offset, v12) ← getZone s v11
  if v12 ≠ [] then throw (parseMessage s (": extra text: " ++ quote v12))
  if day < 1 ∨ daysIn year month < day then throw (parseMessage s ": day out of range")
  pure (((daysFromCivil year month day * 86400 + (hour * 3600 + min * 60 + sec : Nat)) - offset)
    * Second + nsec)

/-- Whether a text is a date-time of RFC 3339, section 5.6: `date-fullyear "-"
date-month "-" date-mday "T" time-hour ":" time-minute ":" time-second
[time-secfrac] time-offset`, every field with its fixed number of digits and in
its range. -/
def validRFC3339 (s : String) : Bool :=
  match s.data with
  | y1 :: y2 :: y3 :: y4 :: '-' :: mo1 :: mo2 :: '-' :: d1 :: d2 :: t ::
      h1 :: h2 :: ':' :: mi1 :: mi2 :: ':' :: s1 :: s2 :: rest =>
    let zone :=
      match rest with
      | '.' :: d :: more => if d.isDigit then more.dropWhile Char.isDigit else rest
      | _ => rest
    let zoneOk : Bool :=
      match zone with
      | [z] => decide (z = 'Z' ∨ z = 'z')
      | [sign, a, b, ':', c, d] =>
        decide (sign = '+' ∨ sign = '-') &&
          (match readDigits [a, b], readDigits [c, d] with
            | some h, some m => decide (h < 24 ∧ m < 60)
            | _, _ => false)
      | _ => false
    match readDigits [y1, y2, y3, y4], readDigits [mo1, mo2], readDigits [d1, d2],
        readDigits [h1, h2], readDigits [mi1, mi2], readDigits [s1, s2] with
    | some y, some mo, some d, some h, some mi, some sec =>
      decide ((t = 'T' ∨ t = 't') ∧ 1 ≤ mo ∧ mo ≤ 12 ∧ 1 ≤ d ∧ d ≤ daysIn y mo ∧ h < 24 ∧
        mi < 60 ∧ sec ≤ 60) && zoneOk
    | _, _, _, _, _, _ => false
  | _ => false

/-- A raised fault record as the controller sends it. -/
def sampleRecord : Record :=
  [ ("code", "F3014"),
    ("descr", "rogue endpoint detected"),
    ("dn", "topology/pod-1/node-101/sys/ctx-[vxlan-1]/bd-[vxlan-2]/rogue"),
    ("lc", "raised"),
    ("lastTransition", "2021-03-04T05:06:07.089+01:00") ]

/-- A later record of the same object, now cleared. -/
def sampleRecordCleared : Record :=
  [ ("descr", "rogue endpoint cleared"),
    ("dn", "topology/pod-1/node-101/sys/ctx-[vxlan-1]/bd-[vxlan-2]/rogue"),
    ("lc", "cleared"),
    ("lastTransition", "2021-03-04T04:10:00Z") ]

/-- A record whose timestamp is not RFC3339. -/
def malformedRecord : Record :=
  [ ("descr", "rogue endpoint detected"),
    ("dn", "topology/pod-1/node-103/sys/rogue"),
    ("lc", "raised"),
    ("lastTransition", "2021-03-04 05:06:07") ]

/-- A record whose timestamp has a one-digit hour: not a date-time of RFC 3339,
yet read by `time.Parse`. -/
def lenientRecord : Record :=
  [ ("descr", "rogue endpoint detected"),
    ("dn", "topology/pod-1/node-105/sys/rogue"),
    ("lc", "raised"),
    ("lastTransition", "2021-03-04T5:06:07Z") ]

/-- A record without a `lastTransition` member. -/
def recordWithoutTime : Record :=
  [ ("dn", "topology/pod-1/node-104/sys/rogue"), ("lc", "raised") ]

/-- The zero value of `time.Time`, January 1 of year 1, in nanoseconds since
1970. -/
def zeroTime : Int := -62135596800 * Second

/-- A client right after `newACIClient`, with a 30 s clear delay: the two
timestamps are the zero time, the registry is empty. -/
def sampleClient : client :=
  { host := "apic1", usr := "admin", pwd := "secret", lastRefresh := zeroTime,
    lastSubscriptionRefresh := zeroTime, clearDelay := 30, refreshTimeout := 0,
    subscriptionID := "", faults := [] }

/-! ## Session -/

/-- The call `strconv.Atoi(s)`: an optional sign and decimal digits, in the
range of a 64-bit `int`; `none` stands for its error. -/
def atoi (s : String) : Option Int :=
  let signed : Int × List Char :=
    match s.data with
    | '+' :: ds => (1, ds)
    | '-' :: ds => (-1, ds)
    | ds => (1, ds)
  match readDigits signed.2 with
  | none => none
  | some n =>
    if minDuration ≤ signed.1 * n ∧ signed.1 * n ≤ maxDuration then some (signed.1 * n)
    else none

/-- The request of `login`. -/
def loginRequest (c : client) : Request :=
  { method := "POST"
    path := "/api/aaaLogin.json"
    data := [("aaaUser.attributes.name", c.usr), ("aaaUser.attributes.pwd", c.pwd)] }

/-- Method `login` of `client.go`, the clock reading `now` at its end. A
status other than 200 panics. -/
def login (http : Transport) (now : Int) (c : client) : Outcome Unit × client :=
  match http (loginRequest c) with
  | .error err => (.error err, c)
  | .ok res =>
    if res.StatusCode ≠ 200 then
      (.panicked ("HTTP status code: " ++ toString res.StatusCode), c)
    else
      match res.readError with
      | some err => (.error err, c)
      | none =>
        if res.errorText ≠ "" then (.error res.errorText, c)
        else
          let refreshTimeout :=
            match atoi res.refreshTimeoutSeconds with
            | some n => n
            | none => 600
          (.ok (), { c with refreshTimeout := refreshTimeout, lastRefresh := now })

/-- Method `refresh` of `client.go`. -/
def refresh (http : Transport) (now : Int) (c : client) : Option String × client :=
  match http { method := "GET", path := "/api/aaaRefresh", data := [] } with
  | .error err => (some err, c)
  | .ok _ => (none, { c with lastRefresh := now })

/-- What one iteration of `refreshLoop` did: whether it called `refresh`, the
error with which the loop returns (if it does), and the client afterwards. -/
structure LoopStep where
  called : Bool
  err : Option String
  c : client
  deriving DecidableEq, Repr

/-- The limit `time.Duration(c.refreshTimeout-30) * time.Second`. -/
def refreshLimit (refreshTimeout : Int) : Int := seconds (refreshTimeout - 30)

/-- One iteration of the loop of `refreshLoop`: the clock reads `now` at
`time.Since` and `later` when `refresh` stamps `lastRefresh`. -/
def refreshLoopStep (http : Transport) (now later : Int) (c : client) : LoopStep :=
  let elapsed := Since now c.lastRefresh
  let limit := refreshLimit c.refreshTimeout
  if elapsed > limit then
    match refresh http later c with
    | (some err, c') => { called := true, err := some err, c := c' }
    | (none, c') => { called := true, err := none, c := c' }
  else
    { called := false, err := none, c := c }

/-! ## Subscription -/

/-- The double quote. -/
def dquote : String := String.singleton (Char.ofNat 34)

/-- The request of `subscribe`, with its two query values. -/
def subscribeRequest : Request :=
  { method := "GET"
    path := "/api/class/faultInst.json"
    data :=
      [ ("query-target-filter",
          "or(eq(faultInst.code," ++ dquote ++ "F3013" ++ dquote ++ "),eq(faultInst.code,"
            ++ dquote ++ "F3014" ++ dquote ++ "))"),
        ("subscription", "yes") ] }

/-- The loop of `subscribe` over the records of the snapshot: the first
`newFault` error is returned and ends the loop. -/
def subscribeRecords (parse : String → Except String Int) :
    client → List Record → Option String × client
  | c, [] => (none, c)
  | c, record :: rest =>
    match newFault parse c record with
    | (some err, c') => (some err, c')
    | (none, c') => subscribeRecords parse c' rest

/-- Method `subscribe` of `client.go`. -/
def subscribe (http : Transport) (parse : String → Except String Int) (now : Int)
    (c : client) : Option String × client :=
  match http subscribeRequest with
  | .error err => (some err, c)
  | .ok res =>
    match res.readError with
    | some err => (some err, c)
    | none =>
      if res.errorText ≠ "" then (some res.errorText, c)
      else if res.subscriptionId = "" then (some "no subscription ID in reply", c)
      else
        subscribeRecords parse
          { c with subscriptionID := res.subscriptionId, lastSubscriptionRefresh := now }
          res.faultAttributes

/-- A message read from the websocket: valid JSON, shown by the string members
at `imdata.0.faultInst.attributes`, or bytes that are not JSON. -/
inductive Frame where
  | json (attributes : Record)
  | invalid (raw : String)
  deriving DecidableEq, Repr

/-- Method `listenSocket` of `client.go` on a socket that delivers `frames` and
then fails with `readErr`: a `newFault` error is logged and the loop goes on. -/
def listenSocket (parse : String → Except String Int) :
    client → List Frame → String → String × client
  | c, [], readErr => (readErr, c)
  | c, .json record :: rest, readErr =>
    listenSocket parse (newFault parse c record).2 rest readErr
  | c, .invalid _ :: rest, readErr => listenSocket parse c rest readErr

/-- A subscribe reply whose snapshot holds a malformed record before a
well-formed one. -/
def snapshotTransport : Transport := fun _ =>
  .ok { StatusCode := 200, readError := none, errorText := "", refreshTimeoutSeconds := "",
        subscriptionId := "72057611234574337",
        faultAttributes := [malformedRecord, sampleRecord] }

/-- A login reply with status 401 and the controller's error text. -/
def unauthorizedTransport : Transport := fun _ =>
  .ok { StatusCode := 401, readError := none,
        errorText := "Username or password is incorrect - FAILED local authentication",
        refreshTimeoutSeconds := "", subscriptionId := "", faultAttributes := [] }

/-- A transport whose every call fails. -/
def downTransport : Transport := fun _ => .error "dial tcp: connection refused"

/-! ## Supervisor

The goroutines of `main.go` and the unbuffered channel `errChan`. A send on
`errChan` completes only together with a receive by another goroutine. -/

/-- What a goroutine is about to do with `errChan`. -/
inductive ChanOp where
  | none
  | send
  | recv
  deriving DecidableEq, Repr

/-- Where the goroutine of `main` stands in its `for` loop. -/
inductive MainPc where
  /-- `client.login()` -/
  | login
  /-- `errChan <- err` after a failed login -/
  | sendLoginErr
  /-- `if client.token() != "" { go ... refreshLoop ... }` -/
  | startRefresh
  /-- `client.connectSocket()` -/
  | connect
  /-- `errChan <- err` after a failed connect -/
  | sendConnErr
  /-- `go ... listenSocket ...` -/
  | startListener
  /-- `client.subscribe()` -/
  | subscribe
  /-- `errChan <- err` after a failed subscribe -/
  | sendSubErr
  /-- `if client.subscriptionID != "" { go ... subscriptionRefreshLoop ... }` -/
  | startSubRefresh
  /-- `err := <-errChan` -/
  | recvErr
  /-- `sleep(sleepDuration)` -/
  | cooldown
  /-- a panic unwound `main` -/
  | crashed
  deriving DecidableEq, Repr

/-- A goroutine started with `go`: `clearNodeLoop` scans for ever; a wrapper
runs its loop, then sends the loop's error on `errChan` and ends. -/
inductive TaskPc where
  | scanning
  | running
  | sendErr
  | done
  deriving DecidableEq, Repr

/-- The channel operation `main` is at. -/
def MainPc.chanOp : MainPc → ChanOp
  | .sendLoginErr => .send
  | .sendConnErr => .send
  | .sendSubErr => .send
  | .recvErr => .recv
  | _ => .none

/-- The channel operation a started goroutine is at: none of them receives. -/
def TaskPc.chanOp : TaskPc → ChanOp
  | .sendErr => .send
  | _ => .none

/-- The constant `sleepDuration` of `main.go`. -/
def sleepDuration : Int := 30 * Second

/-- State of the process: `main`, the goroutines it started, the number of
`client.login()` calls made and the pauses `main` took. -/
structure Supervisor where
  pc : MainPc
  tasks : List TaskPc
  logins : Nat
  sleeps : List Int
  deriving DecidableEq, Repr

/-- How a call made by `main` came back. -/
inductive Ret where
  | ok
  | err
  | panic
  deriving DecidableEq, Repr

/-- What happens next: `main` runs its next statement (with the result of the
call it makes there, and the outcome of the test it makes there); the loop of
a wrapper returns an error; or a sender and a receiver meet on `errChan`
(goroutine 0 is `main`, goroutine `i + 1` is `tasks[i]`). -/
inductive Event where
  | main (ret : Ret) (test : Bool)
  | taskFails (i : Nat)
  | sync (sender receiver : Nat)
  deriving DecidableEq, Repr

/-- The channel operation goroutine `g` is at. -/
def Supervisor.chanOp (s : Supervisor) : Nat → ChanOp
  | 0 => s.pc.chanOp
  | i + 1 =>
    match s.tasks[i]? with
    | some t => t.chanOp
    | none => .none

/-- The sender after its send completed: `main` does `continue`, a wrapper ends. -/
def Supervisor.afterSend (s : Supervisor) : Nat → Supervisor
  | 0 => { s with pc := .login }
  | i + 1 => { s with tasks := s.tasks.set i .done }

/-- The receiver after its receive completed: `main` got a non-nil error and
goes to `sleep(sleepDuration)`. -/
def Supervisor.afterRecv (s : Supervisor) : Nat → Supervisor
  | 0 => { s with pc := .cooldown }
  | _ + 1 => s

/-- The state at the top of the `for` loop of `main`, `clearNodeLoop` started. -/
def Supervisor.initial : Supervisor :=
  { pc := .login, tasks := [.scanning], logins := 0, sleeps := [] }

/-- One step of the process; `none` when the event cannot happen in `s`. -/
def Supervisor.step (s : Supervisor) : Event → Option Supervisor
  | .main ret test =>
    match s.pc with
    | .login =>
      match ret with
      | .ok => some { s with pc := .startRefresh, logins := s.logins + 1 }
      | .err => some { s with pc := .sendLoginErr, logins := s.logins + 1 }
      | .panic => some { s with pc := .crashed, logins := s.logins + 1 }
    | .startRefresh =>
      some { s with pc := .connect, tasks := if test then s.tasks ++ [.running] else s.tasks }
    | .connect =>
      match ret with
      | .ok => some { s with pc := .startListener }
      | .err => some { s with pc := .sendConnErr }
      | .panic => some { s with pc := .crashed }
    | .startListener => some { s with pc := .subscribe, tasks := s.tasks ++ [.running] }
    | .subscribe =>
      match ret with
      | .ok => some { s with pc := .startSubRefresh }
      | .err => some { s with pc := .sendSubErr }
      | .panic => some { s with pc := .crashed }
    | .startSubRefresh =>
      some { s with pc := .recvErr, tasks := if test then s.tasks ++ [.running] else s.tasks }
    | .cooldown => some { s with pc := .login, sleeps := s.sleeps ++ [sleepDuration] }
    | _ => none
  | .taskFails i =>
    match s.tasks[i]? with
    | some .running => some { s with tasks := s.tasks.set i .sendErr }
    | _ => none
  | .sync sender receiver =>
    if sender ≠ receiver ∧ s.chanOp sender = .send ∧ s.chanOp receiver = .recv then
      some ((s.afterSend sender).afterRecv receiver)
    else none

/-- The process under a schedule; an event that cannot happen is skipped. -/
def Supervisor.run (s : Supervisor) : List Event → Supervisor
  | [] => s
  | e :: es =>
    match s.step e with
    | some s' => Supervisor.run s' es
    | none => Supervisor.run s es
/-! ## Theorems -/

theorem wrap64_bounds (x : Int) : minDuration ≤ wrap64 x ∧ wrap64 x ≤ maxDuration := by
  unfold wrap64 minDuration maxDuration
  omega

theorem seconds_lt_max (n : Int) : minDuration ≤ seconds n ∧ seconds n < maxDuration := by
  unfold seconds wrap64 minDuration maxDuration Second
  omega

theorem Since_gt_iff (now t d : Int) (hlo : minDuration ≤ d) (hhi : d < maxDuration) :
    Since now t > d ↔ now - t > d := by
  unfold Since
  unfold minDuration at hlo
  unfold maxDuration at hhi
  unfold maxDuration minDuration
  split_ifs <;> omega

theorem selected_eq_due (now n : Int) (faults : FaultMap) :
    faults.filter (selected now (seconds n)) = due now (seconds n) faults := by
  unfold due
  congr 1
  funext e
  have h := Since_gt_iff now e.2.lastTransition (seconds n) (seconds_lt_max n).1 (seconds_lt_max n).2
  unfold selected
  by_cases h1 : now - e.2.lastTransition > seconds n <;> by_cases h2 : e.2.lc = "raised" <;>
    simp [h1, h2, h.mpr, h] 

theorem clearNodeLoopGo_calls_initial (clearNode : String → Outcome Unit) (now delay : Int) :
    ∀ (es : List (String × fault)) (st : PassResult),
      ∃ l, (clearNodeLoopGo clearNode now delay es st).calls = st.calls ++ l ∧
        l <+: (es.filter (selected now delay)).map Prod.fst := by
  intro es
  induction es with
  | nil => intro st; exact ⟨[], by simp [clearNodeLoopGo]⟩
  | cons e rest ih =>
    intro st
    obtain ⟨dn, f⟩ := e
    by_cases hsel : Since now f.lastTransition > delay ∧ f.lc = "raised"
    · have hs : selected now delay (dn, f) = true := by simp [selected, hsel]
      cases hc : clearNode dn with
      | panicked msg =>
        refine ⟨[dn], ?_, ?_⟩
        · simp [clearNodeLoopGo, hsel, hc]
        · simp [List.filter_cons, hs]
      | error err =>
        obtain ⟨l, hl, hp⟩ := ih { st with
            calls := st.calls ++ [dn]
            logged := st.logged ++ [err]
            faults := st.faults.delete dn }
        refine ⟨dn :: l, ?_, ?_⟩
        · simp [clearNodeLoopGo, hsel, hc, hl]
        · simpa [List.filter_cons, hs] using hp
      | ok v =>
        obtain ⟨l, hl, hp⟩ := ih { st with
            calls := st.calls ++ [dn], faults := st.faults.delete dn }
        refine ⟨dn :: l, ?_, ?_⟩
        · simp [clearNodeLoopGo, hsel, hc, hl]
        · simpa [List.filter_cons, hs] using hp
    · have hs : selected now delay (dn, f) = false := by simp [selected, hsel]
      obtain ⟨l, hl, hp⟩ := ih st
      refine ⟨l, ?_, ?_⟩
      · simp [clearNodeLoopGo, hsel, hl]
      · simpa [List.filter_cons, hs] using hp

theorem clearNodeLoopGo_complete (clearNode : String → Outcome Unit) (now delay : Int) :
    ∀ (es : List (String × fault)) (st : PassResult),
      (∀ e ∈ es.filter (selected now delay), (clearNode e.1).isPanic = false) →
      (clearNodeLoopGo clearNode now delay es st).calls =
          st.calls ++ (es.filter (selected now delay)).map Prod.fst ∧
        (clearNodeLoopGo clearNode now delay es st).aborted = st.aborted ∧
        (clearNodeLoopGo clearNode now delay es st).faults =
          st.faults.filter
            (fun e => decide (e.1 ∉ (es.filter (selected now delay)).map Prod.fst)) := by
  intro es
  induction es with
  | nil => intro st _; simp [clearNodeLoopGo]
  | cons e rest ih =>
    intro st hnp
    obtain ⟨dn, f⟩ := e
    by_cases hsel : Since now f.lastTransition > delay ∧ f.lc = "raised"
    · have hs : selected now delay (dn, f) = true := by simp [selected, hsel]
      have hrest : ∀ e ∈ rest.filter (selected now delay), (clearNode e.1).isPanic = false := by
        intro e he
        exact hnp e (by simp [List.filter_cons, hs, he])
      have hdn : (clearNode dn).isPanic = false := hnp (dn, f) (by simp [List.filter_cons, hs])
      cases hc : clearNode dn with
      | panicked msg => simp [hc, Outcome.isPanic] at hdn
      | error err =>
        obtain ⟨h1, h2, h3⟩ := ih { st with
            calls := st.calls ++ [dn]
            logged := st.logged ++ [err]
            faults := st.faults.delete dn } hrest
        have hstep : clearNodeLoopGo clearNode now delay ((dn, f) :: rest) st =
            clearNodeLoopGo clearNode now delay rest { st with
              calls := st.calls ++ [dn]
              logged := st.logged ++ [err]
              faults := st.faults.delete dn } := by
          simp [clearNodeLoopGo, hsel, hc]
        rw [hstep, h1, h2, h3]
        refine ⟨?_, ?_, ?_⟩
        · simp [List.filter_cons, hs]
        · rfl
        · simp only [FaultMap.delete, List.filter_filter, List.filter_cons, hs, if_true,
            List.map_cons, List.mem_cons]
          apply List.filter_congr
          intro x _
          by_cases hx : x.1 = dn <;> simp [hx]
      | ok v =>
        obtain ⟨h1, h2, h3⟩ := ih { st with
            calls := st.calls ++ [dn], faults := st.faults.delete dn } hrest
        have hstep : clearNodeLoopGo clearNode now delay ((dn, f) :: rest) st =
            clearNodeLoopGo clearNode now delay rest { st with
              calls := st.calls ++ [dn], faults := st.faults.delete dn } := by
          simp [clearNodeLoopGo, hsel, hc]
        rw [hstep, h1, h2, h3]
        refine ⟨?_, ?_, ?_⟩
        · simp [List.filter_cons, hs]
        · rfl
        · simp only [FaultMap.delete, List.filter_filter, List.filter_cons, hs, if_true,
            List.map_cons, List.mem_cons]
          apply List.filter_congr
          intro x _
          by_cases hx : x.1 = dn <;> simp [hx]
    · have hs : selected now delay (dn, f) = false := by simp [selected, hsel]
      have hrest : ∀ e ∈ rest.filter (selected now delay), (clearNode e.1).isPanic = false := by
        intro e he
        exact hnp e (by simp [List.filter_cons, hs, he])
      obtain ⟨h1, h2, h3⟩ := ih st hrest
      have hstep : clearNodeLoopGo clearNode now delay ((dn, f) :: rest) st =
          clearNodeLoopGo clearNode now delay rest st := by
        simp [clearNodeLoopGo, hsel]
      have hf : List.filter (selected now delay) ((dn, f) :: rest) =
          List.filter (selected now delay) rest := by
        simp [List.filter_cons, hs]
      rw [hstep, h1, h2, h3, hf]
      exact ⟨rfl, rfl, rfl⟩

theorem FaultMap.get_eq_none_of_not_mem (m : FaultMap) (k : String) (h : k ∉ m.keys) :
    m.get k = none := by
  induction m with
  | nil => rfl
  | cons e rest ih =>
    obtain ⟨k', v⟩ := e
    simp only [FaultMap.keys, List.map_cons, List.mem_cons, not_or] at h
    have hne : ¬ k' = k := fun hk => h.1 hk.symm
    simp only [FaultMap.get, hne, if_false]
    exact ih h.2

theorem due_filter_not_due (now delay : Int) (faults : FaultMap) :
    due now delay (faults.filter (fun e => decide (e.1 ∉ (due now delay faults).keys))) = [] := by
  unfold due
  rw [List.filter_filter, List.filter_eq_nil_iff]
  intro e he
  simp only [Bool.and_eq_true, decide_eq_true_eq, not_and, FaultMap.keys]
  intro hsel hnot
  apply hnot
  exact List.mem_map_of_mem Prod.fst (List.mem_filter.mpr ⟨he, by simpa using hsel⟩)

theorem clearNodeLoopPass_calls_initial (clearNode : String → Outcome Unit) (now clearDelay : Int)
    (faults : FaultMap) :
    (clearNodeLoopPass clearNode now clearDelay faults).calls <+:
      (due now (seconds clearDelay) faults).keys := by
  obtain ⟨l, hl, hp⟩ := clearNodeLoopGo_calls_initial clearNode now (seconds clearDelay) faults
    { faults := faults, calls := [], logged := [], aborted := none }
  rw [selected_eq_due] at hp
  unfold clearNodeLoopPass
  rw [hl]
  simpa [FaultMap.keys] using hp

theorem clearNodeLoopPass_complete (clearNode : String → Outcome Unit) (now clearDelay : Int)
    (faults : FaultMap)
    (hret : ∀ e ∈ due now (seconds clearDelay) faults, (clearNode e.1).isPanic = false) :
    (clearNodeLoopPass clearNode now clearDelay faults).calls =
        (due now (seconds clearDelay) faults).keys ∧
      (clearNodeLoopPass clearNode now clearDelay faults).aborted = none ∧
      (clearNodeLoopPass clearNode now clearDelay faults).faults =
        faults.filter (fun e => decide (e.1 ∉ (due now (seconds clearDelay) faults).keys)) := by
  have h := clearNodeLoopGo_complete clearNode now (seconds clearDelay) faults
    { faults := faults, calls := [], logged := [], aborted := none }
  rw [selected_eq_due] at h
  obtain ⟨h1, h2, h3⟩ := h hret
  unfold clearNodeLoopPass
  rw [h1, h2, h3]
  exact ⟨by simp [FaultMap.keys], rfl, rfl⟩

theorem seconds_exact (n : Int) (hlo : -9223372036 ≤ n) (hhi : n ≤ 9223372036) :
    seconds n = n * Second := by
  unfold seconds wrap64 Second
  omega

/-- Counterexample of C1. With `clearDelay = 18446744074` the delay
`time.Duration(clearDelay) * time.Second` wraps around to 290448384 ns: at clock
reading 100 s the pass calls `clearNode` on the fault raised at 99 s (and on the
one raised at 10 s) although no fault is older than 18446744074 s. And on a
registry whose first due fault is `topology/pod-1` the call panics, so the pass
never reaches the second due fault. -/
theorem clearNodeLoopPass_wraps_and_aborts :
    ((clearNodeLoopPass (clearNodeVia okTransport) (100 * Second) 18446744074 sampleFaults).calls =
        ["topology/pod-1/node-101/sys/ctx-[vxlan-1]/bd-[vxlan-2]/rogue",
          "topology/pod-2/node-201/sys/rogue"] ∧
      due (100 * Second) (18446744074 * Second) sampleFaults = [] ∧
      seconds 18446744074 = 290448384) ∧
    ((clearNodeLoopPass (clearNodeVia okTransport) (100 * Second) 30 shortDnFaults).calls =
        ["topology/pod-1"] ∧
      (clearNodeLoopPass (clearNodeVia okTransport) (100 * Second) 30 shortDnFaults).aborted =
        some "runtime error: slice bounds out of range [:3] with capacity 2" ∧
      (due (100 * Second) (30 * Second) shortDnFaults).keys =
        ["topology/pod-1", "topology/pod-1/node-101/sys"]) := by
  decide

/-- C1 as amended: when `clearDelay` seconds fit a 64-bit duration
(`-9223372036 ≤ clearDelay ≤ 9223372036`), one pass of the remediation scan
calls `clearNode` only on registered faults whose `lc` is "raised" and whose age
`now - lastTransition` exceeds `clearDelay` seconds, in the order of the
registry and each entry once; when every call returns (success or an error)
the pass runs to its end and has called `clearNode` on every such fault. -/
theorem clearNodeLoopPass_calls_exactly_due (clearNode : String → Outcome Unit)
    (now clearDelay : Int) (faults : FaultMap)
    (hlo : -9223372036 ≤ clearDelay) (hhi : clearDelay ≤ 9223372036) :
    (∀ dn ∈ (clearNodeLoopPass clearNode now clearDelay faults).calls,
        ∃ f, (dn, f) ∈ faults ∧ f.lc = "raised" ∧
          now - f.lastTransition > clearDelay * Second) ∧
      (clearNodeLoopPass clearNode now clearDelay faults).calls <+:
        (due now (clearDelay * Second) faults).keys ∧
      ((∀ e ∈ due now (clearDelay * Second) faults, (clearNode e.1).isPanic = false) →
        (clearNodeLoopPass clearNode now clearDelay faults).aborted = none ∧
          (clearNodeLoopPass clearNode now clearDelay faults).calls =
            (due now (clearDelay * Second) faults).keys) := by
  have hp := clearNodeLoopPass_calls_initial clearNode now clearDelay faults
  have hsec := seconds_exact clearDelay hlo hhi
  rw [hsec] at hp
  refine ⟨?_, hp, ?_⟩
  · intro dn hdn
    have hmem : dn ∈ (due now (clearDelay * Second) faults).keys := hp.subset hdn
    simp only [FaultMap.keys, due, List.mem_map, List.mem_filter, Bool.and_eq_true,
      decide_eq_true_eq] at hmem
    obtain ⟨⟨k, f⟩, ⟨hin, hage, hlc⟩, hk⟩ := hmem
    simp only at hk
    subst hk
    exact ⟨f, hin, hlc, hage⟩
  · intro hret
    rw [← hsec] at hret
    obtain ⟨h1, h2, _⟩ := clearNodeLoopPass_complete clearNode now clearDelay faults hret
    rw [hsec] at h1
    exact ⟨h2, h1⟩

/-- Witness of amended C1 on the sample registry at clock reading 100 s with a
delay of 60 s: exactly the fault raised 90 s ago is cleared. -/
theorem clearNodeLoopPass_calls_exactly_due_witness :
    (clearNodeLoopPass (clearNodeVia okTransport) (100 * Second) 60 sampleFaults).aborted = none ∧
      (clearNodeLoopPass (clearNodeVia okTransport) (100 * Second) 60 sampleFaults).calls =
        ["topology/pod-1/node-101/sys/ctx-[vxlan-1]/bd-[vxlan-2]/rogue"] :=
  ((clearNodeLoopPass_calls_exactly_due (clearNodeVia okTransport) (100 * Second) 60
    sampleFaults (by decide) (by decide)).2.2 (by decide)).imp id (fun h => h.trans (by decide))

theorem due_keys_sublist (now delay : Int) (faults : FaultMap) :
    (due now delay faults).keys.Sublist faults.keys := by
  unfold due FaultMap.keys
  exact List.Sublist.map _ (List.filter_sublist _)

theorem filter_keys_subset (p : String × fault → Bool) (faults : FaultMap) :
    ∀ k ∈ FaultMap.keys (faults.filter p), ∃ e ∈ faults, e.1 = k ∧ p e = true := by
  intro k hk
  simp only [FaultMap.keys, List.mem_map, List.mem_filter] at hk
  obtain ⟨e, ⟨he, hp⟩, hek⟩ := hk
  exact ⟨e, he, hek, hp⟩

/-- C2: when no `clearNode` call of a pass panics (each returns success or an
error), the pass ends with every fault it called `clearNode` on absent from
the registry and has called it at most once per entry; a second pass over the
resulting registry at the same clock reading and delay calls `clearNode` on
nothing, and a later pass at any clock reading and delay never calls it on a
fault of the first pass. -/
theorem clearNodeLoopPass_removes_called (clearNode clearNode' : String → Outcome Unit)
    (now clearDelay : Int) (faults : FaultMap) (hmap : faults.keys.Nodup)
    (hret : ∀ e ∈ due now (seconds clearDelay) faults, (clearNode e.1).isPanic = false) :
    (clearNodeLoopPass clearNode now clearDelay faults).aborted = none ∧
      (∀ dn ∈ (clearNodeLoopPass clearNode now clearDelay faults).calls,
        (clearNodeLoopPass clearNode now clearDelay faults).faults.get dn = none) ∧
      (clearNodeLoopPass clearNode now clearDelay faults).calls.Nodup ∧
      (clearNodeLoopPass clearNode' now clearDelay
        (clearNodeLoopPass clearNode now clearDelay faults).faults).calls = [] ∧
      (∀ (now' clearDelay' : Int),
        ∀ dn ∈ (clearNodeLoopPass clearNode' now' clearDelay'
          (clearNodeLoopPass clearNode now clearDelay faults).faults).calls,
          dn ∉ (clearNodeLoopPass clearNode now clearDelay faults).calls) := by
  obtain ⟨h1, h2, h3⟩ := clearNodeLoopPass_complete clearNode now clearDelay faults hret
  have hkeys : ∀ k ∈ FaultMap.keys (clearNodeLoopPass clearNode now clearDelay faults).faults,
      k ∉ (clearNodeLoopPass clearNode now clearDelay faults).calls := by
    intro k hk
    rw [h3] at hk
    obtain ⟨e, _, hek, hp⟩ := filter_keys_subset _ _ k hk
    rw [h1, ← hek]
    simpa using hp
  refine ⟨h2, ?_, ?_, ?_, ?_⟩
  · intro dn hdn
    apply FaultMap.get_eq_none_of_not_mem
    intro hk
    exact hkeys dn hk hdn
  · rw [h1]
    exact (due_keys_sublist now (seconds clearDelay) faults).nodup hmap
  · have hp := clearNodeLoopPass_calls_initial clearNode' now clearDelay
      (clearNodeLoopPass clearNode now clearDelay faults).faults
    rw [h3, due_filter_not_due] at hp
    rw [h3]
    exact List.prefix_nil.mp hp
  · intro now' clearDelay' dn hdn
    have hp := clearNodeLoopPass_calls_initial clearNode' now' clearDelay'
      (clearNodeLoopPass clearNode now clearDelay faults).faults
    have hsub := (due_keys_sublist now' (seconds clearDelay')
      (clearNodeLoopPass clearNode now clearDelay faults).faults).subset (hp.subset hdn)
    exact hkeys dn hsub

/-- Witness of C2 on the sample registry, with a controller that answers every
clear request with an error: the fault is removed all the same. -/
theorem clearNodeLoopPass_removes_called_witness :
    (clearNodeLoopPass (clearNodeVia errTransport) (100 * Second) 30 sampleFaults).calls =
        ["topology/pod-1/node-101/sys/ctx-[vxlan-1]/bd-[vxlan-2]/rogue"] ∧
      (clearNodeLoopPass (clearNodeVia errTransport) (100 * Second) 30 sampleFaults).faults.get
        "topology/pod-1/node-101/sys/ctx-[vxlan-1]/bd-[vxlan-2]/rogue" = none ∧
      (clearNodeLoopPass (clearNodeVia okTransport) (100 * Second) 30
        (clearNodeLoopPass (clearNodeVia errTransport) (100 * Second) 30
          sampleFaults).faults).calls = [] :=
  ⟨by decide,
    (clearNodeLoopPass_removes_called (clearNodeVia errTransport) (clearNodeVia okTransport)
      (100 * Second) 30 sampleFaults (by decide) (by decide)).2.1 _ (by decide),
    (clearNodeLoopPass_removes_called (clearNodeVia errTransport) (clearNodeVia okTransport)
      (100 * Second) 30 sampleFaults (by decide) (by decide)).2.2.2.1⟩

theorem FaultMap.get_set_self (m : FaultMap) (k : String) (v : fault) :
    (m.set k v).get k = some v := by
  induction m with
  | nil => simp [FaultMap.set, FaultMap.get]
  | cons e rest ih =>
    obtain ⟨k', v'⟩ := e
    by_cases hk : k' = k
    · simp [FaultMap.set, FaultMap.get, hk]
    · simp [FaultMap.set, FaultMap.get, hk, ih]

theorem FaultMap.get_set_ne (m : FaultMap) (k k' : String) (v : fault) (hne : k ≠ k') :
    (m.set k v).get k' = m.get k' := by
  induction m with
  | nil => simp [FaultMap.set, FaultMap.get, hne]
  | cons e rest ih =>
    obtain ⟨k₀, v₀⟩ := e
    by_cases hk : k₀ = k
    · subst hk
      simp [FaultMap.set, FaultMap.get, hne]
    · simp [FaultMap.set, FaultMap.get, hk, ih]

theorem FaultMap.mem_keys_set (m : FaultMap) (k k' : String) (v : fault) :
    k' ∈ (m.set k v).keys ↔ k' = k ∨ k' ∈ m.keys := by
  induction m with
  | nil => simp [FaultMap.set, FaultMap.keys]
  | cons e rest ih =>
    obtain ⟨k₀, v₀⟩ := e
    by_cases hk : k₀ = k
    · subst hk
      simp [FaultMap.set, FaultMap.keys]
    · simp only [FaultMap.keys] at ih
      simp only [FaultMap.set, hk, if_false, FaultMap.keys, List.map_cons, List.mem_cons, ih]
      tauto

theorem FaultMap.nodup_keys_set (m : FaultMap) (k : String) (v : fault) (h : m.keys.Nodup) :
    (m.set k v).keys.Nodup := by
  induction m with
  | nil => simp [FaultMap.set, FaultMap.keys]
  | cons e rest ih =>
    obtain ⟨k₀, v₀⟩ := e
    simp only [FaultMap.keys, List.map_cons, List.nodup_cons] at h
    by_cases hk : k₀ = k
    · subst hk
      simpa [FaultMap.set, FaultMap.keys] using h
    · have hrest := ih h.2
      have hmem := FaultMap.mem_keys_set rest k k₀ v
      simp only [FaultMap.keys] at hrest hmem
      simp only [FaultMap.set, hk, if_false, FaultMap.keys, List.map_cons, List.nodup_cons]
      refine ⟨?_, hrest⟩
      rw [hmem]
      rintro (h1 | h1)
      · exact hk h1
      · exact h.1 h1

theorem newFault_ok (parse : String → Except String Int) (c : client) (record : Record) (t : Int)
    (h : parse (record.Str "lastTransition") = .ok t) :
    newFault parse c record =
      (none,
        { c with
          faults :=
            c.faults.set (record.Str "dn")
              ⟨record.Str "descr", record.Str "dn", t, record.Str "lc"⟩ }) := by
  simp [newFault, h]

theorem ingest_spec (parse : String → Except String Int) (records : List Record) :
    ∀ (c : client), c.faults.keys.Nodup →
      (∀ r ∈ records, ∃ t, parse (r.Str "lastTransition") = .ok t) →
      (ingest parse c records).faults.keys.Nodup ∧
        (∀ dn r, lastRecord dn records = some r →
          ∃ t, parse (r.Str "lastTransition") = .ok t ∧
            (ingest parse c records).faults.get dn =
              some { dn := dn, descr := r.Str "descr", lc := r.Str "lc", lastTransition := t }) ∧
        (∀ dn, lastRecord dn records = none →
          (ingest parse c records).faults.get dn = c.faults.get dn) := by
  induction records with
  | nil =>
    intro c hmap _
    refine ⟨hmap, ?_, ?_⟩
    · intro dn r h
      simp [lastRecord] at h
    · intro dn _
      rfl
  | cons r rest ih =>
    intro c hmap hparse
    obtain ⟨t, ht⟩ := hparse r (List.mem_cons_self r rest)
    have hstep : ingest parse c (r :: rest) = ingest parse (newFault parse c r).2 rest := by
      simp [ingest]
    have hnf := newFault_ok parse c r t ht
    have hmap' : (newFault parse c r).2.faults.keys.Nodup := by
      rw [hnf]
      exact FaultMap.nodup_keys_set _ _ _ hmap
    obtain ⟨ih1, ih2, ih3⟩ := ih (newFault parse c r).2 hmap'
      (fun r' hr' => hparse r' (List.mem_cons_of_mem r hr'))
    rw [hstep]
    refine ⟨ih1, ?_, ?_⟩
    · intro dn r' hlast
      cases hrest : lastRecord dn rest with
      | some r'' =>
        have : r'' = r' := by simpa [lastRecord, hrest] using hlast
        subst this
        exact ih2 dn r'' hrest
      | none =>
        simp only [lastRecord, hrest] at hlast
        by_cases hdn : r.Str "dn" = dn
        · simp only [hdn, if_true, Option.some.injEq] at hlast
          subst hlast
          refine ⟨t, ht, ?_⟩
          rw [ih3 dn hrest, hnf]
          simp only
          rw [hdn]
          exact FaultMap.get_set_self _ _ _
        · simp [hdn] at hlast
    · intro dn hlast
      cases hrest : lastRecord dn rest with
      | some r'' => simp [lastRecord, hrest] at hlast
      | none =>
        simp only [lastRecord, hrest] at hlast
        by_cases hdn : r.Str "dn" = dn
        · simp [hdn] at hlast
        · rw [ih3 dn hrest, hnf]
          exact FaultMap.get_set_ne _ _ _ _ hdn

theorem listenSocket_eq_ingest (parse : String → Except String Int) (readErr : String)
    (records : List Record) :
    ∀ (c : client),
      listenSocket parse c (records.map Frame.json) readErr = (readErr, ingest parse c records) := by
  induction records with
  | nil => intro c; rfl
  | cons r rest ih =>
    intro c
    simp only [List.map_cons, listenSocket, ih]
    rfl

theorem subscribeRecords_eq_ingest (parse : String → Except String Int)
    (records : List Record) :
    ∀ (c : client), (∀ r ∈ records, ∃ t, parse (r.Str "lastTransition") = .ok t) →
      subscribeRecords parse c records = (none, ingest parse c records) := by
  induction records with
  | nil => intro c _; rfl
  | cons r rest ih =>
    intro c hparse
    obtain ⟨t, ht⟩ := hparse r (List.mem_cons_self r rest)
    have hnf := newFault_ok parse c r t ht
    have hrest := ih (newFault parse c r).2
      (fun r' hr' => hparse r' (List.mem_cons_of_mem r hr'))
    have hstep : ingest parse c (r :: rest) = ingest parse (newFault parse c r).2 rest := by
      simp [ingest]
    rw [hstep, ← hrest]
    simp only [subscribeRecords]
    rw [hnf]

theorem subscribeRecords_error_of_unparsable (parse : String → Except String Int)
    (records : List Record) :
    ∀ (c : client), (∃ r ∈ records, ∃ err, parse (r.Str "lastTransition") = .error err) →
      (subscribeRecords parse c records).1 ≠ none := by
  induction records with
  | nil =>
    intro c h
    obtain ⟨r, hr, _⟩ := h
    simp at hr
  | cons r rest ih =>
    intro c h
    cases hp : parse (r.Str "lastTransition") with
    | error err => simp [subscribeRecords, newFault, hp]
    | ok t =>
      have hnf := newFault_ok parse c r t hp
      have hrest : ∃ r' ∈ rest, ∃ err, parse (r'.Str "lastTransition") = .error err := by
        obtain ⟨r', hr', err, herr⟩ := h
        rcases List.mem_cons.mp hr' with rfl | hmem
        · rw [hp] at herr
          cases herr
        · exact ⟨r', hmem, err, herr⟩
      have := ih (newFault parse c r).2 hrest
      simp only [subscribeRecords]
      rw [hnf]
      rw [hnf] at this
      exact this

/-- C3: after any run of `newFault` calls on records with a parseable
`lastTransition`, a registry that had one entry per `dn` still has one entry
per `dn`; the entry of every ingested `dn` carries the `descr`, `lc` and
`lastTransition` of the last record ingested with that `dn` and nothing of an
earlier one; the entries of other `dn`s are untouched. The loop of `subscribe`
over a snapshot and `listenSocket` over socket messages both make exactly this
run of calls. -/
theorem ingest_last_write_wins (parse : String → Except String Int) (records : List Record)
    (c : client) (readErr : String) (hmap : c.faults.keys.Nodup)
    (hparse : ∀ r ∈ records, ∃ t, parse (r.Str "lastTransition") = .ok t) :
    (ingest parse c records).faults.keys.Nodup ∧
      (∀ dn r, lastRecord dn records = some r →
        ∃ t, parse (r.Str "lastTransition") = .ok t ∧
          (ingest parse c records).faults.get dn =
            some { dn := dn, descr := r.Str "descr", lc := r.Str "lc", lastTransition := t }) ∧
      (∀ dn, lastRecord dn records = none →
        (ingest parse c records).faults.get dn = c.faults.get dn) ∧
      subscribeRecords parse c records = (none, ingest parse c records) ∧
      listenSocket parse c (records.map Frame.json) readErr =
        (readErr, ingest parse c records) := by
  obtain ⟨h1, h2, h3⟩ := ingest_spec parse records c hmap hparse
  exact ⟨h1, h2, h3, subscribeRecords_eq_ingest parse records c hparse,
    listenSocket_eq_ingest parse readErr records c⟩

/-- Witness of C3: a raised record followed by a cleared record of the same
object leaves the single entry of the cleared record. -/
theorem ingest_last_write_wins_witness :
    (ingest parseRFC3339 sampleClient [sampleRecord, sampleRecordCleared]).faults.keys.Nodup ∧
      (ingest parseRFC3339 sampleClient [sampleRecord, sampleRecordCleared]).faults.get
          "topology/pod-1/node-101/sys/ctx-[vxlan-1]/bd-[vxlan-2]/rogue" =
        some { dn := "topology/pod-1/node-101/sys/ctx-[vxlan-1]/bd-[vxlan-2]/rogue",
               descr := "rogue endpoint cleared", lc := "cleared",
               lastTransition := 1614831000000000000 } :=
  have h := ingest_last_write_wins parseRFC3339 [sampleRecord, sampleRecordCleared] sampleClient
    "websocket: close 1006" (by decide)
    (by
      intro r hr
      simp only [List.mem_cons, List.mem_singleton, List.not_mem_nil, or_false] at hr
      rcases hr with rfl | rfl
      · exact ⟨1614830767089000000, rfl⟩
      · exact ⟨1614831000000000000, rfl⟩)
  ⟨h.1, by
    obtain ⟨t, ht, hget⟩ := h.2.1
      "topology/pod-1/node-101/sys/ctx-[vxlan-1]/bd-[vxlan-2]/rogue" sampleRecordCleared rfl
    have : t = 1614831000000000000 := by
      have h2 : parseRFC3339 (sampleRecordCleared.Str "lastTransition") =
          .ok 1614831000000000000 := rfl
      rw [h2] at ht
      exact (Except.ok.inj ht).symm
    rw [hget, this]
    rfl⟩

theorem Record.Str_of_missing (record : Record) (key : String)
    (h : ∀ v, (key, v) ∉ record) : record.Str key = "" := by
  induction record with
  | nil => rfl
  | cons e rest ih =>
    obtain ⟨k, v⟩ := e
    have hk : ¬ k = key := by
      intro hk
      exact h v (by simp [hk])
    simp only [Record.Str, hk, if_false]
    exact ih (fun v' hv' => h v' (List.mem_cons_of_mem _ hv'))

theorem parseRFC3339_of_getYear_none (s : String) (h : getYear s.data = none) :
    parseRFC3339 s = .error (cannotParse s s.data "2006") := by
  unfold parseRFC3339
  rw [h]
  rfl

theorem newFault_error (parse : String → Except String Int) (c : client) (record : Record)
    (err : String) (h : parse (record.Str "lastTransition") = .error err) :
    newFault parse c record = (some err, c) := by
  simp [newFault, h]

/-- Counterexample of C4: the text `2021-03-04T5:06:07Z` is not a date-time of
RFC 3339 (its hour has one digit), yet `time.Parse` reads it and `newFault`
returns no error and adds the fault to the registry. -/
theorem newFault_accepts_one_digit_hour :
    validRFC3339 (lenientRecord.Str "lastTransition") = false ∧
      (newFault parseRFC3339 sampleClient lenientRecord).1 = none ∧
      (newFault parseRFC3339 sampleClient lenientRecord).2.faults =
        [("topology/pod-1/node-105/sys/rogue",
          { descr := "rogue endpoint detected", dn := "topology/pod-1/node-105/sys/rogue",
            lastTransition := 1614834367000000000, lc := "raised" })] ∧
      sampleClient.faults = [] := by
  decide

/-- C4 as amended: a record whose `lastTransition` text `time.Parse` rejects
makes `newFault` return the parse error and leaves the client, and so the
registry and its size, as they were; this is so for every text that does not
begin with four decimal digits, and for a record without the member, whose
text is empty. -/
theorem newFault_rejects_unparsable (c : client) (record : Record) :
    (∀ (parse : String → Except String Int) (err : String),
        parse (record.Str "lastTransition") = .error err →
        newFault parse c record = (some err, c)) ∧
      (getYear (record.Str "lastTransition").data = none →
        newFault parseRFC3339 c record =
          (some (cannotParse (record.Str "lastTransition") (record.Str "lastTransition").data
            "2006"), c)) ∧
      ((∀ v, ("lastTransition", v) ∉ record) →
        newFault parseRFC3339 c record =
          (some "parsing time \"\" as \"2006-01-02T15:04:05Z07:00\": cannot parse \"\" as \"2006\"",
            c)) := by
  refine ⟨?_, ?_, ?_⟩
  · intro parse err h
    exact newFault_error parse c record err h
  · intro h
    exact newFault_error parseRFC3339 c record _ (parseRFC3339_of_getYear_none _ h)
  · intro h
    have hstr := Record.Str_of_missing record "lastTransition" h
    apply newFault_error parseRFC3339 c record
    rw [hstr]
    rfl

/-- Witness of amended C4: a record without `lastTransition` and a record with
a blank in place of `T` are rejected with the errors of `time.Parse`, and the
registry keeps its single entry. -/
theorem newFault_rejects_unparsable_witness :
    newFault parseRFC3339 (ingest parseRFC3339 sampleClient [sampleRecord]) recordWithoutTime =
        (some "parsing time \"\" as \"2006-01-02T15:04:05Z07:00\": cannot parse \"\" as \"2006\"",
          ingest parseRFC3339 sampleClient [sampleRecord]) ∧
      newFault parseRFC3339 (ingest parseRFC3339 sampleClient [sampleRecord]) malformedRecord =
        (some ("parsing time \"2021-03-04 05:06:07\" as \"2006-01-02T15:04:05Z07:00\": "
            ++ "cannot parse \" 05:06:07\" as \"T\""),
          ingest parseRFC3339 sampleClient [sampleRecord]) ∧
      (ingest parseRFC3339 sampleClient [sampleRecord]).faults.length = 1 :=
  ⟨(newFault_rejects_unparsable (ingest parseRFC3339 sampleClient [sampleRecord])
      recordWithoutTime).2.2 (by simp [recordWithoutTime]),
    (newFault_rejects_unparsable (ingest parseRFC3339 sampleClient [sampleRecord])
      malformedRecord).1 parseRFC3339 _ rfl,
    by decide⟩

theorem splitChars_append_sep (sep : Char) (b : List Char) :
    ∀ a : List Char, sep ∉ a → splitChars sep (a ++ sep :: b) = a :: splitChars sep b := by
  intro a
  induction a with
  | nil => intro _; simp [splitChars]
  | cons c a ih =>
    intro h
    simp only [List.mem_cons, not_or] at h
    have hc : ¬ c = sep := fun hcs => h.1 hcs.symm
    simp [splitChars, hc, ih h.2]

theorem splitChars_ne_nil (sep : Char) (a : List Char) : splitChars sep a ≠ [] := by
  induction a with
  | nil => simp [splitChars]
  | cons c a ih =>
    by_cases hc : c = sep
    · simp [splitChars, hc]
    · cases h : splitChars sep a with
      | nil => exact absurd h ih
      | cons p ps => simp [splitChars, hc, h]

theorem getNodeDn_of_form (p n rest : String) (hp : '/' ∉ p.data) (hn : '/' ∉ n.data) :
    getNodeDn ("topology/pod-" ++ p ++ "/node-" ++ n ++ "/" ++ rest) =
      .ok ("topology/pod-" ++ p ++ "/node-" ++ n) := by
  have hdata : ("topology/pod-" ++ p ++ "/node-" ++ n ++ "/" ++ rest).data =
      "topology".data ++ '/' :: (("pod-".data ++ p.data) ++ '/' ::
        (("node-".data ++ n.data) ++ '/' :: rest.data)) := by
    simp [String.data_append]
  have h1 : '/' ∉ "topology".data := by decide
  have h2 : '/' ∉ "pod-".data ++ p.data := by
    simp only [List.mem_append, not_or]
    exact ⟨by decide, hp⟩
  have h3 : '/' ∉ "node-".data ++ n.data := by
    simp only [List.mem_append, not_or]
    exact ⟨by decide, hn⟩
  have hsplit : Split ("topology/pod-" ++ p ++ "/node-" ++ n ++ "/" ++ rest) =
      String.mk "topology".data :: String.mk ("pod-".data ++ p.data) ::
        String.mk ("node-".data ++ n.data) :: (splitChars '/' rest.data).map String.mk := by
    unfold Split
    rw [hdata, splitChars_append_sep '/' _ _ h1, splitChars_append_sep '/' _ _ h2,
      splitChars_append_sep '/' _ _ h3]
    rfl
  unfold getNodeDn
  simp only [hsplit, List.length_cons, List.take_succ_cons, List.take_zero]
  have hlen : ¬ ((List.map String.mk (splitChars '/' rest.data)).length + 1 + 1 + 1 < 3) := by
    omega
  simp only [hlen, if_false]
  congr 1
  apply String.ext
  simp [Join, joinChars, String.data_append]

theorem HasPrefix_of_form (p tail : String) :
    HasPrefix ("topology/pod-" ++ p ++ tail) "topology/pod-" = true := by
  unfold HasPrefix
  rw [List.isPrefixOf_iff_prefix]
  exact ⟨p.data ++ tail.data, by simp [String.data_append]⟩

theorem clearNode_rejects (http : Transport) (dn : String)
    (h : dn = "" ∨ HasPrefix dn "topology/pod-" = false) :
    ((clearNode http dn).1 = .error "Empty DN" ∨
        (clearNode http dn).1 = .error ("Unexpected DN format: " ++ dn)) ∧
      (clearNode http dn).2 = [] := by
  by_cases he : dn = ""
  · simp [clearNode, he]
  · have hpre : HasPrefix dn "topology/pod-" = false := h.resolve_left he
    simp [clearNode, he, hpre]

theorem clearNode_posts (http : Transport) (dn nodeDn : String)
    (hpre : HasPrefix dn "topology/pod-" = true) (hnode : getNodeDn dn = .ok nodeDn) :
    (clearNode http dn).1.isPanic = false ∧ (clearNode http dn).2 = [clearRequest nodeDn] := by
  have he : dn ≠ "" := by
    rintro rfl
    simp [HasPrefix] at hpre
  unfold clearNode
  simp only [he, if_false, hpre, hnode, Bool.not_true, Bool.false_eq_true]
  cases hres : http (clearRequest nodeDn) with
  | error err => simp [Outcome.isPanic]
  | ok res =>
    cases hread : res.readError with
    | some err => simp [hread, Outcome.isPanic]
    | none =>
      by_cases htxt : res.errorText = ""
      · simp [hread, htxt, Outcome.isPanic]
      · simp [hread, htxt, Outcome.isPanic]

/-- C5: for an object id `topology/pod-<p>/node-<n>/<rest>` with no `/` in
`<p>` and `<n>`, `getNodeDn` returns `topology/pod-<p>/node-<n>` and `clearNode`
posts its one request for that node; for an object id that does not begin with
`topology/pod-`, `clearNode` returns the format error (or the empty-id error)
and submits no request. -/
theorem clearNode_derives_node_dn (http : Transport) (p n rest dn : String)
    (hp : '/' ∉ p.data) (hn : '/' ∉ n.data) (hdn : HasPrefix dn "topology/pod-" = false) :
    getNodeDn ("topology/pod-" ++ p ++ "/node-" ++ n ++ "/" ++ rest) =
        .ok ("topology/pod-" ++ p ++ "/node-" ++ n) ∧
      (clearNode http ("topology/pod-" ++ p ++ "/node-" ++ n ++ "/" ++ rest)).2 =
        [clearRequest ("topology/pod-" ++ p ++ "/node-" ++ n)] ∧
      (clearNode http ("topology/pod-" ++ p ++ "/node-" ++ n ++ "/" ++ rest)).1.isPanic = false ∧
      ((clearNode http dn).1 = .error "Empty DN" ∨
        (clearNode http dn).1 = .error ("Unexpected DN format: " ++ dn)) ∧
      (clearNode http dn).2 = [] := by
  have hnode := getNodeDn_of_form p n rest hp hn
  have hpre : HasPrefix ("topology/pod-" ++ p ++ "/node-" ++ n ++ "/" ++ rest)
      "topology/pod-" = true := by
    have := HasPrefix_of_form p ("/node-" ++ n ++ "/" ++ rest)
    simpa [String.append_assoc] using this
  obtain ⟨h1, h2⟩ := clearNode_posts http _ _ hpre hnode
  obtain ⟨h3, h4⟩ := clearNode_rejects http dn (Or.inr hdn)
  exact ⟨hnode, h2, h1, h3, h4⟩

/-- Witness of C5: pod 1, node 101, and an object id under `uni/`. -/
theorem clearNode_derives_node_dn_witness :
    getNodeDn "topology/pod-1/node-101/sys/ctx-[vxlan-1]/bd-[vxlan-2]/rogue" =
        .ok "topology/pod-1/node-101" ∧
      (clearNode okTransport "uni/tn-common/rogue").1 =
        .error "Unexpected DN format: uni/tn-common/rogue" ∧
      (clearNode okTransport "uni/tn-common/rogue").2 = [] :=
  have h := clearNode_derives_node_dn okTransport "1" "101" "sys/ctx-[vxlan-1]/bd-[vxlan-2]/rogue"
    "uni/tn-common/rogue" (by decide) (by decide) (by decide)
  ⟨h.1, by decide, h.2.2.2.2⟩

/-- The check of `clearNode` is on the prefix only: an object id that begins
with `topology/pod-` but whose third segment is not `node-<n>` is not rejected;
`clearNode` posts the clear request for `topology/pod-1/leaf-7`. -/
theorem clearNode_accepts_non_node_segment :
    (clearNode okTransport "topology/pod-1/leaf-7/sys").1 = .ok () ∧
      (clearNode okTransport "topology/pod-1/leaf-7/sys").2 =
        [clearRequest "topology/pod-1/leaf-7"] := by
  decide

theorem clearNode_isPanic_iff (http : Transport) (dn : String) :
    (clearNode http dn).1.isPanic = true ↔
      (HasPrefix dn "topology/pod-" = true ∧ (Split dn).length < 3) := by
  by_cases hpre : HasPrefix dn "topology/pod-" = true
  · by_cases hlen : (Split dn).length < 3
    · have he : dn ≠ "" := by
        rintro rfl
        simp [HasPrefix] at hpre
      simp [clearNode, he, hpre, getNodeDn, hlen, Outcome.isPanic]
    · have hnode : getNodeDn dn = .ok (Join ((Split dn).take 3) "/") := by
        simp [getNodeDn, hlen]
      have h := (clearNode_posts http dn _ hpre hnode).1
      simp [h, hlen]
  · have hfalse : HasPrefix dn "topology/pod-" = false := by simpa using hpre
    obtain ⟨h1, _⟩ := clearNode_rejects http dn (Or.inr hfalse)
    rcases h1 with h1 | h1 <;> simp [h1, hfalse, Outcome.isPanic]

/-- C7 on the code: the object id `topology/pod-1` has two segments, so the
slice expression of `getNodeDn` panics and so does `clearNode`, which returns
no error; in general `clearNode` panics exactly on the object ids that begin
with `topology/pod-` and have fewer than three segments. -/
theorem clearNode_two_segments_panics :
    (clearNode okTransport "topology/pod-1").1 =
        .panicked "runtime error: slice bounds out of range [:3] with capacity 2" ∧
      (clearNode okTransport "topology/pod-1").1.isError = false ∧
      ∀ (http : Transport) (dn : String),
        (clearNode http dn).1.isPanic = true ↔
          (HasPrefix dn "topology/pod-" = true ∧ (Split dn).length < 3) :=
  ⟨by decide, by decide, clearNode_isPanic_iff⟩

/-- Where `clearNode` does what its checks intend: it returns an error and
submits no request for an empty object id and for one that does not begin with
`topology/pod-`; for one that begins with `topology/pod-` and has at least
three segments it does not panic and submits exactly one request, for the node
named by the first three segments. -/
theorem clearNode_no_panic_on_three_segments (http : Transport) (dn : String) :
    ((dn = "" ∨ HasPrefix dn "topology/pod-" = false) →
        (clearNode http dn).1.isError = true ∧ (clearNode http dn).2 = []) ∧
      (HasPrefix dn "topology/pod-" = true → 3 ≤ (Split dn).length →
        (clearNode http dn).1.isPanic = false ∧
          (clearNode http dn).2 = [clearRequest (Join ((Split dn).take 3) "/")]) := by
  constructor
  · intro h
    obtain ⟨h1, h2⟩ := clearNode_rejects http dn h
    refine ⟨?_, h2⟩
    rcases h1 with h1 | h1 <;> simp [h1, Outcome.isError]
  · intro hpre hlen
    apply clearNode_posts http dn _ hpre
    unfold getNodeDn
    have : ¬ (Split dn).length < 3 := by omega
    simp [this]

/-- The empty id is rejected without a request, and a three-segment id is
posted for. -/
theorem clearNode_no_panic_on_three_segments_witness :
    ((clearNode errTransport "").1.isError = true ∧ (clearNode errTransport "").2 = []) ∧
      ((clearNode errTransport "topology/pod-1/node-101").1.isPanic = false ∧
        (clearNode errTransport "topology/pod-1/node-101").2 =
          [clearRequest (Join ((Split "topology/pod-1/node-101").take 3) "/")]) :=
  ⟨(clearNode_no_panic_on_three_segments errTransport "").1 (Or.inl rfl),
    (clearNode_no_panic_on_three_segments errTransport "topology/pod-1/node-101").2
      (by decide) (by decide)⟩

/-- Counterexample of C6: on a reply with status 401 `login` does not return
an error, it panics. -/
theorem login_panics_on_401 :
    (login unauthorizedTransport 0 sampleClient).1 = .panicked "HTTP status code: 401" ∧
      (login unauthorizedTransport 0 sampleClient).1.isError = false := by
  decide

/-- C6 as amended: on a reply whose status is not 200 `login` panics with the
status code and leaves the client as it was; it returns an error to its caller
when the transport call fails, when reading the body of a 200 reply fails, and
when the body of a 200 reply carries an error text. -/
theorem login_status_not_ok_panics (http : Transport) (now : Int) (c : client) :
    (∀ res, http (loginRequest c) = .ok res → res.StatusCode ≠ 200 →
        login http now c = (.panicked ("HTTP status code: " ++ toString res.StatusCode), c)) ∧
      (∀ err, http (loginRequest c) = .error err → login http now c = (.error err, c)) ∧
      (∀ res err, http (loginRequest c) = .ok res → res.StatusCode = 200 →
        res.readError = some err → login http now c = (.error err, c)) ∧
      (∀ res, http (loginRequest c) = .ok res → res.StatusCode = 200 →
        res.readError = none → res.errorText ≠ "" →
        login http now c = (.error res.errorText, c)) := by
  refine ⟨?_, ?_, ?_, ?_⟩
  · intro res hres hst
    simp [login, hres, hst]
  · intro err hres
    simp [login, hres]
  · intro res err hres hst hread
    simp [login, hres, hst, hread]
  · intro res hres hst hread htxt
    simp [login, hres, hst, hread, htxt]

/-- Witness of amended C6: status 401 panics, a failed transport call is
returned as an error. -/
theorem login_status_not_ok_panics_witness :
    login unauthorizedTransport 0 sampleClient =
        (.panicked ("HTTP status code: " ++ toString 401), sampleClient) ∧
      login downTransport 0 sampleClient =
        (.error "dial tcp: connection refused", sampleClient) :=
  ⟨(login_status_not_ok_panics unauthorizedTransport 0 sampleClient).1 _ rfl (by decide),
    (login_status_not_ok_panics downTransport 0 sampleClient).2.1 _ rfl⟩

theorem subscribe_error_of_unparsable (http : Transport) (parse : String → Except String Int)
    (now : Int) (c : client) (res : Response) (hres : http subscribeRequest = .ok res)
    (hread : res.readError = none) (htxt : res.errorText = "") (hid : res.subscriptionId ≠ "")
    (hbad : ∃ r ∈ res.faultAttributes, ∃ err, parse (r.Str "lastTransition") = .error err) :
    (subscribe http parse now c).1 ≠ none := by
  simp only [subscribe, hres, hread, htxt, hid, ne_eq, not_true_eq_false, if_false]
  exact subscribeRecords_error_of_unparsable parse res.faultAttributes _ hbad

/-- C8 on the code, for a reply with a subscription id, no error payload and a
snapshot holding a malformed record before a well-formed one: `subscribe`
returns the parse error and the well-formed record is not ingested, while
`listenSocket` given the same two records logs the error, goes on and ingests
the well-formed one. In general `subscribe` returns an error whenever a record
of the snapshot has an unparsable `lastTransition`. -/
theorem subscribe_fails_on_malformed_snapshot_record :
    (subscribe snapshotTransport parseRFC3339 0 sampleClient).1 =
        some ("parsing time \"2021-03-04 05:06:07\" as \"2006-01-02T15:04:05Z07:00\": "
          ++ "cannot parse \" 05:06:07\" as \"T\"") ∧
      (subscribe snapshotTransport parseRFC3339 0 sampleClient).2.faults = [] ∧
      (listenSocket parseRFC3339 sampleClient [.json malformedRecord, .json sampleRecord]
        "websocket: close 1006").2.faults.keys =
        ["topology/pod-1/node-101/sys/ctx-[vxlan-1]/bd-[vxlan-2]/rogue"] ∧
      ∀ (http : Transport) (parse : String → Except String Int) (now : Int) (c : client)
        (res : Response),
        http subscribeRequest = .ok res → res.readError = none → res.errorText = "" →
        res.subscriptionId ≠ "" →
        (∃ r ∈ res.faultAttributes, ∃ err, parse (r.Str "lastTransition") = .error err) →
        (subscribe http parse now c).1 ≠ none :=
  ⟨by decide, by decide, by decide, subscribe_error_of_unparsable⟩

theorem refreshLimit_exact (rt : Int) (hlo : -9223372006 ≤ rt) (hhi : rt ≤ 9223372066) :
    refreshLimit rt = (rt - 30) * Second := by
  unfold refreshLimit seconds wrap64 Second
  omega

/-- Counterexample of C9: with `refreshTimeoutSeconds = 18446744104` the limit
wraps around to 290448384 ns, and an iteration one second after `lastRefresh`
calls `refresh` although one second does not exceed 18446744074 s. -/
theorem refreshLoopStep_wraps :
    (refreshLoopStep okTransport Second Second
        { sampleClient with refreshTimeout := 18446744104, lastRefresh := 0 }).called = true ∧
      ¬ (Second - 0 > (18446744104 - 30) * Second) ∧
      refreshLimit 18446744104 = 290448384 := by
  decide

/-- C9 as amended: when `(refreshTimeoutSeconds - 30)` seconds fit a 64-bit
duration (`-9223372006 ≤ refreshTimeoutSeconds ≤ 9223372066`), an iteration of
`refreshLoop` calls `refresh` exactly when `now - lastRefresh` exceeds
`(refreshTimeoutSeconds - 30)` seconds. -/
theorem refreshLoopStep_called_iff (http : Transport) (now later : Int) (c : client)
    (hlo : -9223372006 ≤ c.refreshTimeout) (hhi : c.refreshTimeout ≤ 9223372066) :
    (refreshLoopStep http now later c).called = true ↔
      now - c.lastRefresh > (c.refreshTimeout - 30) * Second := by
  have hlim := refreshLimit_exact c.refreshTimeout hlo hhi
  have hb := seconds_lt_max (c.refreshTimeout - 30)
  have hs := Since_gt_iff now c.lastRefresh (refreshLimit c.refreshTimeout) hb.1 hb.2
  rw [← hlim, ← hs]
  unfold refreshLoopStep
  by_cases h : Since now c.lastRefresh > refreshLimit c.refreshTimeout
  · simp only [h, if_true, iff_true]
    cases hr : refresh http later c with
    | mk e c' => cases e <;> rfl
  · simp [h]

/-- Witness of amended C9 with `refreshTimeoutSeconds = 600`: no refresh at
570 s after `lastRefresh`, a refresh one nanosecond later. -/
theorem refreshLoopStep_called_iff_witness :
    ((refreshLoopStep okTransport (1000 * Second + 570 * Second) 0
        { sampleClient with refreshTimeout := 600, lastRefresh := 1000 * Second }).called = true ↔
      (1000 * Second + 570 * Second) - 1000 * Second > (600 - 30) * Second) ∧
    (refreshLoopStep okTransport (1000 * Second + 570 * Second) 0
        { sampleClient with refreshTimeout := 600, lastRefresh := 1000 * Second }).called = false ∧
    (refreshLoopStep okTransport (1000 * Second + 570 * Second + 1) 0
        { sampleClient with refreshTimeout := 600, lastRefresh := 1000 * Second }).called = true :=
  ⟨refreshLoopStep_called_iff okTransport (1000 * Second + 570 * Second) 0
      { sampleClient with refreshTimeout := 600, lastRefresh := 1000 * Second }
      (by decide) (by decide),
    by decide, by decide⟩

theorem Supervisor.chanOp_ne_recv_of_send (s : Supervisor) (h : s.pc.chanOp = .send) (g : Nat) :
    s.chanOp g ≠ .recv := by
  cases g with
  | zero =>
    simp only [Supervisor.chanOp, h]
    decide
  | succ i =>
    simp only [Supervisor.chanOp]
    cases s.tasks[i]? with
    | none => decide
    | some t => cases t <;> decide

theorem Supervisor.step_of_send (s s' : Supervisor) (e : Event) (h : s.pc.chanOp = .send)
    (hstep : s.step e = some s') :
    s'.pc = s.pc ∧ s'.logins = s.logins ∧ s'.sleeps = s.sleeps := by
  cases e with
  | main ret test =>
    cases hpc : s.pc <;> simp [hpc, MainPc.chanOp] at h <;>
      simp [Supervisor.step, hpc] at hstep
  | taskFails i =>
    simp only [Supervisor.step] at hstep
    cases ht : s.tasks[i]? with
    | none => simp [ht] at hstep
    | some t =>
      rw [ht] at hstep
      cases t <;> simp at hstep
      subst hstep
      exact ⟨rfl, rfl, rfl⟩
  | sync a b =>
    simp only [Supervisor.step] at hstep
    have hb := Supervisor.chanOp_ne_recv_of_send s h b
    simp [hb] at hstep

/-- C10 on the code: once `main` stands at one of its three `errChan <- err`
statements (after a failed login, connect or subscribe), every schedule leaves
it there: it makes no further login call and takes no cooldown pause. -/
theorem supervisor_blocked_on_send (events : List Event) :
    ∀ (s : Supervisor), s.pc.chanOp = .send →
      (s.run events).pc = s.pc ∧ (s.run events).logins = s.logins ∧
        (s.run events).sleeps = s.sleeps := by
  induction events with
  | nil => intro s _; exact ⟨rfl, rfl, rfl⟩
  | cons e es ih =>
    intro s h
    simp only [Supervisor.run]
    cases hstep : s.step e with
    | none => exact ih s h
    | some s' =>
      obtain ⟨h1, h2, h3⟩ := Supervisor.step_of_send s s' e h hstep
      obtain ⟨i1, i2, i3⟩ := ih s' (by rw [h1]; exact h)
      exact ⟨i1.trans h1, i2.trans h2, i3.trans h3⟩

/-- The first login fails: whatever is scheduled afterwards, `main` is still at
`errChan <- err`, one login call was made and no pause taken. -/
theorem supervisor_blocked_on_send_witness :
    (Supervisor.initial.run
        [.main .err false, .sync 0 1, .sync 1 0, .taskFails 0, .main .ok true]).pc =
        .sendLoginErr ∧
      (Supervisor.initial.run
        [.main .err false, .sync 0 1, .sync 1 0, .taskFails 0, .main .ok true]).logins = 1 ∧
      (Supervisor.initial.run
        [.main .err false, .sync 0 1, .sync 1 0, .taskFails 0, .main .ok true]).sleeps = [] :=
  supervisor_blocked_on_send [.sync 0 1, .sync 1 0, .taskFails 0, .main .ok true]
    { pc := .sendLoginErr, tasks := [.scanning], logins := 1, sleeps := [] } rfl

/-- The path of `main.go` that does restart: all three calls succeed, later the
listener fails, `main` receives its error, pauses 30 s and is back at login. -/
theorem supervisor_restarts_after_task_failure :
    Supervisor.initial.run
        [.main .ok true, .main .ok true, .main .ok true, .main .ok true, .main .ok true,
          .main .ok true, .taskFails 2, .sync 3 0, .main .ok true] =
      { pc := .login, tasks := [.scanning, .running, .done, .running], logins := 1,
        sleeps := [30 * Second] } := by
  decide

end RepMonitor
